import Mathlib

/-!
Shallow embedding of `src/chibios.py`, a GDB plugin that inspects
ChibiOS/RT kernel state: walking the intrusive circular thread registry
and virtual-timer rings, scanning thread stacks for the 0x55 fill
sentinel, reconstructing the circular trace buffer, and decoding the
packed kernel version.

Modelling conventions:
* addresses are `Nat`, gdb integer values are `Int`, bytes are `Nat`;
* a dereferenced `Thread` gdb value is a `GdbThread` record, obtained
  from a total memory map `Nat → GdbThread` (likewise `GdbTimer`);
* `'field' in thread.type.keys()` becomes the `has_...` Booleans;
* `inferior.read_memory` returns `Option` (`none` = `gdb.MemoryError`);
* the unbounded `while` loops of the walkers take explicit fuel; running
  out of fuel is the distinguished `noFuel` outcome;
* a raised `gdb.GdbError` is an `err` outcome carrying its message
  string; Python `IndexError` / `AttributeError` during trace-line
  formatting make the query result `none`.
-/

namespace Chibios

/-- `ChibiosThread.THREAD_STATE`: the fixed thread-state table. -/
def THREAD_STATE : List String :=
  ["READY", "CURRENT", "SUSPENDED", "WTSEM", "WTMTX",
   "WTCOND", "SLEEPING", "WTEXIT", "WTOREVT",
   "WTANDEVT", "SNDMSGQ", "SNDMSG", "WTMSG",
   "WTQUEUE", "FINAL"]

/-- Python list indexing `l[i]`: a negative index counts from the end of
the list; an index out of range on either side raises `IndexError`,
modelled as `none`. -/
def pyIndex {α : Type} (l : List α) (i : Int) : Option α :=
  if 0 ≤ i then l.get? i.toNat
  else if 0 ≤ (l.length : Int) + i then l.get? ((l.length : Int) + i).toNat
  else none

/-- Python slicing `l[k:]` for an arbitrary integer `k` (the source uses
`trace_lines[-count:]`): a non-negative start drops the first `k`
elements, a negative start begins at `max (len + k) 0`. -/
def pySliceFrom {α : Type} (l : List α) (k : Int) : List α :=
  if 0 ≤ k then l.drop k.toNat
  else l.drop (max ((l.length : Int) + k) 0).toNat

/-- The fields of a dereferenced `Thread` gdb value that
`ChibiosThread.__init__` and the registry walk read.  `has_p_stklimit`
and `has_p_time` model the `'p_stklimit' in thread.type.keys()` /
`'p_time' in thread.type.keys()` layout-reflection queries. -/
structure GdbThread where
  p_newer : Nat
  p_older : Nat
  p_ctx_r13 : Nat
  has_p_stklimit : Bool
  p_stklimit : Nat
  p_name : String
  p_state : Int
  p_flags : Int
  p_prio : Int
  p_refs : Int
  has_p_time : Bool
  p_time : Nat
deriving Repr, DecidableEq

/-- `gdb.selected_inferior()`, reduced to the byte-range read used by
the stack scan.  `read_memory addr len = none` models `gdb.MemoryError`
(unmapped or otherwise unreadable range). -/
structure Inferior where
  read_memory : Nat → Int → Option (List Nat)

/-- The snapshot stored by `ChibiosThread.__init__`, as exposed through
the class properties (`stack_limit`, `stack_start`, `stack_unused`,
`stack_size`, `address`, `name`, `state`, `flags`, `prio`, `time`). -/
structure ChibiosThread where
  stack_limit : Nat
  stack_start : Nat
  address : Nat
  stack_size : Int
  stack_unused : Int
  name : String
  state : Int
  flags : Int
  prio : Int
  refs : Int
  time : Nat
deriving Repr, DecidableEq

/-- The scan loop of `ChibiosThread.__init__`: the index of the first
byte differing from the fill sentinel `0x55` (`'U'`), or `none` when
every byte matches (the `for`/`else` full-buffer branch). -/
def findNonSentinel : List Nat → Option Nat
  | [] => none
  | b :: rest => if b ≠ 0x55 then some 0 else (findNonSentinel rest).map (· + 1)

/-- `ChibiosThread.__init__` on the dereferenced `Thread` value `t`
whose own address is `addr`.  Optional fields are read only after the
`in thread.type.keys()` check and otherwise keep their `0` defaults from
the top of `__init__`; the stack is scanned only when `stklimit > 0`,
and a `gdb.MemoryError` during the scan leaves `stack_unused = 0`. -/
def mkChibiosThread (addr : Nat) (t : GdbThread) (inf : Inferior) : ChibiosThread :=
  let r13 : Nat := t.p_ctx_r13
  let stklimit : Nat := if t.has_p_stklimit then t.p_stklimit else 0
  let stack_size : Int := if stklimit > 0 then (r13 : Int) - (stklimit : Int) else 0
  let stack_unused : Int :=
    if stklimit > 0 then
      match inf.read_memory stklimit ((r13 : Int) - (stklimit : Int)) with
      | some stack =>
        match findNonSentinel stack with
        | some i => (i : Int)
        | none => (r13 : Int) - (stklimit : Int)
      | none => 0
    else 0
  { stack_limit := stklimit
    stack_start := r13
    address := addr
    stack_size := stack_size
    stack_unused := stack_unused
    name := if t.p_name.length > 0 then t.p_name else "<no name>"
    state := t.p_state
    flags := t.p_flags
    prio := t.p_prio
    refs := t.p_refs
    time := if t.has_p_time then t.p_time else 0 }

/-- `ChibiosThread.state_str`: `THREAD_STATE[self.state]` with Python
indexing semantics (negative codes count from the end of the table,
codes out of range on either side raise `IndexError`). -/
def ChibiosThread.state_str (t : ChibiosThread) : Option String :=
  pyIndex THREAD_STATE t.state

/-- Message of the `gdb.GdbError` raised by both ring walkers when the
backward-pointer consistency check fails. -/
def corruptMsg : String := "Rlist pointer invalid--corrupt list?"

/-- Result of the registry walk: a completed list, a raised
`gdb.GdbError` with its message, or fuel exhaustion (the source loop
would not have terminated within the given bound). -/
inductive WalkOutcome (α : Type) where
  | ok (threads : List α)
  | err (msg : String)
  | noFuel
deriving Repr, DecidableEq

/-- Map a function over a successful walk, keeping failures. -/
def WalkOutcome.map {α β : Type} (f : α → β) : WalkOutcome α → WalkOutcome β
  | .ok l => .ok (l.map f)
  | .err m => .err m
  | .noFuel => .noFuel

/-- The `while (newer != rlist_as_thread)` loop of
`chibios_get_threads`, yielding the addresses of the visited nodes.
Each iteration visits `newer`, advances along `p_newer`, re-reads
`p_older` from the *advanced* pointer and raises when it does not point
back at the node just visited.  Note the backward pointer of the first
node after the sentinel is never compared with anything. -/
def walkFrom (mem : Nat → GdbThread) (S : Nat) : Nat → Nat → WalkOutcome Nat
  | 0, newer => if newer = S then .ok [] else .noFuel
  | fuel + 1, newer =>
    if newer = S then .ok []
    else if (mem (mem newer).p_newer).p_older ≠ newer then .err corruptMsg
    else
      match walkFrom mem S fuel (mem newer).p_newer with
      | .ok rest => .ok (newer :: rest)
      | .err m => .err m
      | .noFuel => .noFuel

/-- `chibios_get_threads`: walk the registry ring from
`rlist.p_newer` (sentinel `S` = `&rlist` cast to `Thread*`) and build a
`ChibiosThread` for every visited node.  The whole call raises — and
returns no threads at all — if any consistency check fails. -/
def chibios_get_threads (mem : Nat → GdbThread) (inf : Inferior) (S : Nat)
    (fuel : Nat) : WalkOutcome ChibiosThread :=
  (walkFrom mem S fuel (mem S).p_newer).map (fun a => mkChibiosThread a (mem a) inf)

/-- `chainOk mem S cur ns`: walking forward from `cur`, the loop visits
exactly the nodes `ns` (none of them the sentinel), every backward
pointer the loop inspects points back correctly, and the walk closes at
the sentinel `S`. -/
def chainOk (mem : Nat → GdbThread) (S : Nat) : Nat → List Nat → Bool
  | cur, [] => cur == S
  | cur, n :: ns =>
    cur == n && (cur != S) && ((mem (mem cur).p_newer).p_older == cur)
      && chainOk mem S (mem cur).p_newer ns

/-- A fully consistent ring of nodes `ns` hanging off sentinel `S`: the
forward chain from `S.p_newer` runs through `ns` and back to `S`, every
followed link `cur → next` satisfies `next.p_older = cur`, including the
very first link out of the sentinel. -/
def ringConsistent (mem : Nat → GdbThread) (S : Nat) (ns : List Nat) : Bool :=
  ((mem (mem S).p_newer).p_older == S) && chainOk mem S (mem S).p_newer ns

/-- `chainCorrupt mem S cur ns`: walking forward from `cur`, the loop
visits exactly the nodes `ns`, and the backward-pointer check made while
visiting the *last* node of `ns` fails (all earlier checks pass). -/
def chainCorrupt (mem : Nat → GdbThread) (S : Nat) : Nat → List Nat → Bool
  | _, [] => false
  | cur, n :: ns =>
    cur == n && (cur != S) &&
      match ns with
      | [] => !((mem (mem cur).p_newer).p_older == cur)
      | _ :: _ =>
        ((mem (mem cur).p_newer).p_older == cur) && chainCorrupt mem S (mem cur).p_newer ns

/-- The fields of a dereferenced `VirtualTimer` gdb value read by
`ChibiosTimersCommand.invoke`. -/
structure GdbTimer where
  vt_next : Nat
  vt_prev : Nat
  vt_time : Int
  vt_func : Nat
  vt_par : Nat
deriving Repr, DecidableEq

/-- One printed row of `chibios timers`. -/
structure TimerEntry where
  vt_time : Int
  vt_func : Nat
  vt_par : Nat
deriving Repr, DecidableEq

/-- Field extraction for one timer row. -/
def mkTimerEntry (t : GdbTimer) : TimerEntry :=
  { vt_time := t.vt_time, vt_func := t.vt_func, vt_par := t.vt_par }

/-- How the timers loop ended: ran to completion, raised a
`gdb.GdbError`, or exhausted the fuel bound. -/
inductive LoopEnd where
  | finished
  | err (msg : String)
  | noFuel
deriving Repr, DecidableEq

/-- The `while (vt_next != vtlist_as_timer)` loop of
`ChibiosTimersCommand.invoke`; the first component collects the rows
printed before the loop ended.  Each iteration prints the current timer
first, then advances and checks the advanced node's `vt_prev` — so the
row of the node at which corruption is detected has already been
printed, and (as in the registry walk) the first node's own backward
pointer is never compared with anything. -/
def chibios_timers_from (mem : Nat → GdbTimer) (S : Nat) :
    Nat → Nat → List TimerEntry × LoopEnd
  | 0, cur => if cur = S then ([], .finished) else ([], .noFuel)
  | fuel + 1, cur =>
    if cur = S then ([], .finished)
    else if (mem (mem cur).vt_next).vt_prev ≠ cur then
      ([mkTimerEntry (mem cur)], .err corruptMsg)
    else
      (mkTimerEntry (mem cur) :: (chibios_timers_from mem S fuel (mem cur).vt_next).1,
       (chibios_timers_from mem S fuel (mem cur).vt_next).2)

/-- `ChibiosTimersCommand.invoke`: walk the timer ring from
`vtlist.vt_next` (sentinel `S` = `&vtlist` cast to `VirtualTimer*`). -/
def chibios_timers (mem : Nat → GdbTimer) (S : Nat) (fuel : Nat) :
    List TimerEntry × LoopEnd :=
  chibios_timers_from mem S fuel (mem S).vt_next

/-- `timerChainCorrupt mem S cur ns`: the timers loop starting at `cur`
visits exactly the nodes `ns` and the backward-pointer check made while
visiting the last node of `ns` fails (all earlier checks pass). -/
def timerChainCorrupt (mem : Nat → GdbTimer) (S : Nat) : Nat → List Nat → Bool
  | _, [] => false
  | cur, n :: ns =>
    cur == n && (cur != S) &&
      match ns with
      | [] => !((mem (mem cur).vt_next).vt_prev == cur)
      | _ :: _ =>
        ((mem (mem cur).vt_next).vt_prev == cur)
          && timerChainCorrupt mem S (mem cur).vt_next ns

/-- One slot of the `dbg_trace_buffer.tb_buffer` ring. -/
structure TraceEvent where
  se_time : Int
  se_state : Int
  se_tp : Nat
deriving Repr, DecidableEq

/-- The data of one formatted trace row (the `trace_format` fields of
`ChibiosTraceCommand.trace_line`, before string formatting). -/
structure TraceLine where
  event_index : Int
  time : Int
  prev_address : Nat
  prev_name : String
  state : String
  curr_address : Nat
  curr_name : String
deriving Repr, DecidableEq

/-- `next((i for i in threads if i.address == addr), None)`. -/
def lookupThread (threads : List ChibiosThread) (addr : Nat) : Option ChibiosThread :=
  threads.find? (fun t => t.address == addr)

/-- `ChibiosTraceCommand.trace_line`.  Both format branches read
`curr_thread.address`, so a `None` current thread raises
`AttributeError` (`none`); `THREAD_STATE[state]` may raise `IndexError`.
A `None` previous thread is rendered as address `0` and empty name. -/
def trace_line (index : Int) (time : Int) (state : Int)
    (prev_thread : Option ChibiosThread) (curr_thread : Option ChibiosThread) :
    Option TraceLine :=
  match curr_thread with
  | none => none
  | some c =>
    match pyIndex THREAD_STATE state with
    | none => none
    | some st =>
      match prev_thread with
      | none => some ⟨index, time, 0, "", st, c.address, c.name⟩
      | some p => some ⟨index, time, p.address, p.name, st, c.address, c.name⟩

/-- The `for j, event in enumerate(traces[1:], 1)` loop of
`ChibiosTraceCommand.invoke`: each remaining event is paired with its
chronological predecessor `prevEv`; any failing `trace_line` aborts the
whole command. -/
def buildRest (threads : List ChibiosThread) :
    Int → TraceEvent → List TraceEvent → Option (List TraceLine)
  | _, _, [] => some []
  | idx, prevEv, e :: rest =>
    match trace_line idx e.se_time e.se_state
        (lookupThread threads prevEv.se_tp) (lookupThread threads e.se_tp) with
    | none => none
    | some line =>
      match buildRest threads (idx + 1) e rest with
      | none => none
      | some ls => some (line :: ls)

/-- Building `trace_lines` in `ChibiosTraceCommand.invoke`: the oldest
event is printed separately with an explicit `None` predecessor (index
`-63`), the rest through `buildRest`.  An empty `traces` list would
raise `IndexError` at `traces[0]` (`none`). -/
def buildTraceLines (threads : List ChibiosThread) (traces : List TraceEvent) :
    Option (List TraceLine) :=
  match traces with
  | [] => none
  | t0 :: rest =>
    match trace_line (-63) t0.se_time t0.se_state none (lookupThread threads t0.se_tp) with
    | none => none
    | some l0 =>
      match buildRest threads (-62) t0 rest with
      | none => none
      | some ls => some (l0 :: ls)

/-- The two `xrange` copy loops of `ChibiosTraceCommand.invoke`:
`buffer[w:]` followed by `buffer[:w]`, i.e. the ring linearised into
chronological order starting at the write cursor `w` (`tb_ptr` minus
`tb_buffer`). -/
def reorderTraces (buffer : List TraceEvent) (w : Nat) : List TraceEvent :=
  buffer.drop w ++ buffer.take w

/-- `ChibiosTraceCommand.invoke` for a given snapshot set, trace buffer
contents, write cursor `w` and requested count: cap the count at
`tb_size`, linearise the ring, build all trace lines, and print
`trace_lines[-count:]`. -/
def chibios_trace_invoke (threads : List ChibiosThread) (buffer : List TraceEvent)
    (w : Nat) (count : Int) : Option (List TraceLine) :=
  (buildTraceLines threads (reorderTraces buffer w)).map
    (fun lines => pySliceFrom lines
      (-(if count > (buffer.length : Int) then (buffer.length : Int) else count)))

/-- The version decode of `ChibiosInfoCommand.invoke` applied to the
`ch_version` cell: `(major, minor, patch)`. -/
def chibios_info (ch_version : Nat) : Nat × Nat × Nat :=
  ((ch_version >>> 11) &&& 0x1f, (ch_version >>> 6) &&& 0x1f, ch_version &&& 0x1f)

/-! Concrete targets used to evaluate the definitions on closed inputs. -/

/-- A `Thread` value with every field at its default. -/
def baseThread : GdbThread :=
  { p_newer := 0, p_older := 0, p_ctx_r13 := 0, has_p_stklimit := false,
    p_stklimit := 0, p_name := "", p_state := 0, p_flags := 0,
    p_prio := 0, p_refs := 0, has_p_time := false, p_time := 0 }

/-- An inferior on which every memory read fails. -/
def infNone : Inferior := ⟨fun _ _ => none⟩

/-- A two-node registry ring (sentinel `100`, nodes `1, 2`) whose only
flaw is the backward pointer of the first node after the sentinel:
`(memFirstBad 1).p_older = 999` instead of `100`. -/
def memFirstBad : Nat → GdbThread := fun a =>
  if a = 100 then { baseThread with p_newer := 1, p_older := 2 }
  else if a = 1 then { baseThread with p_newer := 2, p_older := 999 }
  else if a = 2 then { baseThread with p_newer := 100, p_older := 1 }
  else baseThread

/-- A two-node registry ring (sentinel `100`, nodes `1, 2`) corrupted at
the second followed link: `(memCorrupt2 2).p_older = 999` instead of
`1`. -/
def memCorrupt2 : Nat → GdbThread := fun a =>
  if a = 100 then { baseThread with p_newer := 1, p_older := 2 }
  else if a = 1 then { baseThread with p_newer := 2, p_older := 100 }
  else if a = 2 then { baseThread with p_newer := 100, p_older := 999 }
  else baseThread

/-- A two-node timer ring (sentinel `200`, nodes `5, 6`) corrupted at
the second followed link: `(tmemCorrupt 6).vt_prev = 999` instead of
`5`. -/
def tmemCorrupt : Nat → GdbTimer := fun a =>
  if a = 200 then { vt_next := 5, vt_prev := 6, vt_time := 0, vt_func := 0, vt_par := 0 }
  else if a = 5 then { vt_next := 6, vt_prev := 200, vt_time := 30, vt_func := 40, vt_par := 50 }
  else if a = 6 then { vt_next := 200, vt_prev := 999, vt_time := 31, vt_func := 41, vt_par := 51 }
  else { vt_next := 0, vt_prev := 0, vt_time := 0, vt_func := 0, vt_par := 0 }

/-- A fully consistent three-node registry ring (sentinel `100`, nodes
`1, 2, 3`). -/
def mem3 : Nat → GdbThread := fun a =>
  if a = 100 then { baseThread with p_newer := 1, p_older := 3 }
  else if a = 1 then { baseThread with p_newer := 2, p_older := 100 }
  else if a = 2 then { baseThread with p_newer := 3, p_older := 1 }
  else if a = 3 then { baseThread with p_newer := 100, p_older := 2 }
  else baseThread

/-- An empty registry ring: the sentinel `100` points at itself. -/
def memEmpty : Nat → GdbThread := fun _ =>
  { baseThread with p_newer := 100, p_older := 100 }

/-- A consistent two-node ring whose threads both track their stack:
thread `1` has stack range `[16, 24)`, thread `2` has `[64, 68)`. -/
def memStacks : Nat → GdbThread := fun a =>
  if a = 100 then { baseThread with p_newer := 1, p_older := 2 }
  else if a = 1 then
    { baseThread with p_newer := 2, p_older := 100, has_p_stklimit := true, p_stklimit := 16, p_ctx_r13 := 24 }
  else if a = 2 then
    { baseThread with p_newer := 100, p_older := 1, has_p_stklimit := true, p_stklimit := 64, p_ctx_r13 := 68 }
  else baseThread

/-- An inferior on which the read at address `16` fails with
`gdb.MemoryError` while the read at `64` succeeds. -/
def infPartial : Inferior :=
  ⟨fun addr _ => if addr = 16 then none else some [0x55, 0x55, 11, 0x55]⟩

/-- A thread whose stack range `[16, 21)` holds `55 55 55 07 55`: first
non-sentinel byte at offset `3`. -/
def scanThreadA : GdbThread :=
  { baseThread with has_p_stklimit := true, p_stklimit := 16, p_ctx_r13 := 21 }

/-- A thread whose stack range `[32, 36)` is entirely sentinel-filled. -/
def scanThreadB : GdbThread :=
  { baseThread with has_p_stklimit := true, p_stklimit := 32, p_ctx_r13 := 36 }

/-- Backing memory for `scanThreadA` and `scanThreadB`. -/
def infScan : Inferior :=
  ⟨fun addr _ =>
    if addr = 16 then some [0x55, 0x55, 0x55, 7, 0x55]
    else if addr = 32 then some [0x55, 0x55, 0x55, 0x55]
    else none⟩

/-- A `Thread` value on a build without `p_stklimit`/`p_time`; the raw
(unread) field values are deliberately non-zero. -/
def gdbThreadAbsent : GdbThread :=
  { baseThread with p_stklimit := 777, p_time := 888 }

/-- A `Thread` value on a build with `p_stklimit`/`p_time` present, both
measured as zero. -/
def gdbThreadZero : GdbThread :=
  { baseThread with has_p_stklimit := true, p_stklimit := 0, has_p_time := true, p_time := 0 }

/-- A `Thread` value with the given raw state code. -/
def stateThread (s : Int) : GdbThread := { baseThread with p_state := s }

/-- One decoded snapshot at address `1000`, named `main`. -/
def sampleThread : ChibiosThread :=
  { stack_limit := 0, stack_start := 0, address := 1000, stack_size := 0,
    stack_unused := 0, name := "main", state := 0, flags := 0, prio := 0,
    refs := 0, time := 0 }

/-- A capacity-5 trace buffer in raw ring order; all events name the
thread at `1000` and carry distinct timestamps `10 … 14`. -/
def sampleEvents : List TraceEvent :=
  [⟨10, 0, 1000⟩, ⟨11, 0, 1000⟩, ⟨12, 0, 1000⟩, ⟨13, 0, 1000⟩, ⟨14, 0, 1000⟩]

/-- The trace lines built from `sampleEvents` with write cursor `2`. -/
def sampleLines : List TraceLine :=
  [⟨-63, 12, 0, "", "READY", 1000, "main"⟩,
   ⟨-62, 13, 1000, "main", "READY", 1000, "main"⟩,
   ⟨-61, 14, 1000, "main", "READY", 1000, "main"⟩,
   ⟨-60, 10, 1000, "main", "READY", 1000, "main"⟩,
   ⟨-59, 11, 1000, "main", "READY", 1000, "main"⟩]

/-! ## Walk lemmas -/

/-- On a chain that closes consistently, the registry loop yields
exactly the chain's nodes, given enough fuel. -/
theorem walkFrom_chainOk (mem : Nat → GdbThread) (S : Nat) :
    ∀ (ns : List Nat) (cur fuel : Nat), chainOk mem S cur ns = true →
      ns.length ≤ fuel → walkFrom mem S fuel cur = .ok ns := by
  intro ns
  induction ns with
  | nil =>
    intro cur fuel h _
    have hc : cur = S := by simpa [chainOk] using h
    cases fuel <;> simp [walkFrom, hc]
  | cons n ns ih =>
    intro cur fuel h hf
    simp only [chainOk, Bool.and_eq_true, beq_iff_eq, bne_iff_ne] at h
    obtain ⟨⟨⟨hn, hS⟩, hchk⟩, hrest⟩ := h
    cases fuel with
    | zero => simp at hf
    | succ f =>
      have hf2 : ns.length ≤ f := by simp at hf; omega
      rw [walkFrom, if_neg hS, if_neg (not_not_intro hchk),
        ih (mem cur).p_newer f hrest hf2, hn]

/-- The sentinel never occurs among the nodes of a consistent chain. -/
theorem chainOk_not_mem (mem : Nat → GdbThread) (S : Nat) :
    ∀ (ns : List Nat) (cur : Nat), chainOk mem S cur ns = true → S ∉ ns := by
  intro ns
  induction ns with
  | nil => intro cur _; simp
  | cons n ns ih =>
    intro cur h
    simp only [chainOk, Bool.and_eq_true, beq_iff_eq, bne_iff_ne] at h
    obtain ⟨⟨⟨hn, hS⟩, _⟩, hrest⟩ := h
    simp only [List.mem_cons, not_or]
    exact ⟨fun hSn => hS (hSn ▸ hn.symm ▸ rfl), ih (mem cur).p_newer hrest⟩

/-- On a chain whose last visited node fails the backward-pointer
check, the registry loop raises the corrupt-list error. -/
theorem walkFrom_chainCorrupt (mem : Nat → GdbThread) (S : Nat) :
    ∀ (ns : List Nat) (cur fuel : Nat), chainCorrupt mem S cur ns = true →
      ns.length ≤ fuel → walkFrom mem S fuel cur = .err corruptMsg := by
  intro ns
  induction ns with
  | nil => intro cur fuel h _; simp [chainCorrupt] at h
  | cons n ns ih =>
    intro cur fuel h hf
    cases fuel with
    | zero => simp at hf
    | succ f =>
      cases ns with
      | nil =>
        simp only [chainCorrupt, Bool.and_eq_true, beq_iff_eq, bne_iff_ne,
          Bool.not_eq_true', beq_eq_false_iff_ne] at h
        obtain ⟨⟨hn, hS⟩, hbad⟩ := h
        rw [walkFrom, if_neg hS, if_pos hbad]
      | cons m rest =>
        simp only [chainCorrupt, Bool.and_eq_true, beq_iff_eq, bne_iff_ne] at h
        obtain ⟨⟨hn, hS⟩, hchk, hrest⟩ := h
        have hf2 : (m :: rest).length ≤ f := by simp at hf ⊢; omega
        have hrest2 : chainCorrupt mem S (mem cur).p_newer (m :: rest) = true := by
          simp only [chainCorrupt, Bool.and_eq_true, beq_iff_eq, bne_iff_ne]
          exact hrest
        rw [walkFrom, if_neg hS, if_neg (not_not_intro hchk),
          ih (mem cur).p_newer f hrest2 hf2]

/-- On a chain whose last visited node fails the backward-pointer
check, the timers loop prints exactly the chain's rows and raises. -/
theorem timersFrom_chainCorrupt (mem : Nat → GdbTimer) (S : Nat) :
    ∀ (ns : List Nat) (cur fuel : Nat), timerChainCorrupt mem S cur ns = true →
      ns.length ≤ fuel →
      chibios_timers_from mem S fuel cur =
        (ns.map (fun a => mkTimerEntry (mem a)), .err corruptMsg) := by
  intro ns
  induction ns with
  | nil => intro cur fuel h _; simp [timerChainCorrupt] at h
  | cons n ns ih =>
    intro cur fuel h hf
    cases fuel with
    | zero => simp at hf
    | succ f =>
      cases ns with
      | nil =>
        simp only [timerChainCorrupt, Bool.and_eq_true, beq_iff_eq, bne_iff_ne,
          Bool.not_eq_true', beq_eq_false_iff_ne] at h
        obtain ⟨⟨hn, hS⟩, hbad⟩ := h
        rw [chibios_timers_from, if_neg hS, if_pos hbad, hn]
        simp
      | cons m rest =>
        simp only [timerChainCorrupt, Bool.and_eq_true, beq_iff_eq, bne_iff_ne] at h
        obtain ⟨⟨hn, hS⟩, hchk, hrest⟩ := h
        have hf2 : (m :: rest).length ≤ f := by simp at hf ⊢; omega
        have hrest2 : timerChainCorrupt mem S (mem cur).vt_next (m :: rest) = true := by
          simp only [timerChainCorrupt, Bool.and_eq_true, beq_iff_eq, bne_iff_ne]
          exact hrest
        rw [chibios_timers_from, if_neg hS, if_neg (not_not_intro hchk),
          ih (mem cur).vt_next f hrest2 hf2, hn]
        simp

/-! ## Ring traversal claims -/

/-- C2: for every ring of `N` nodes (`N ≥ 0`) with consistent
forward/backward pointers, the walker yields exactly the `N` node
addresses in forward order starting at the sentinel's forward pointer,
never yielding the sentinel itself; in particular an empty ring
(`sentinel.p_newer = sentinel`, the `ns = []` instance) yields zero
nodes and is not an error. -/
theorem consistent_ring_walk_ok :
    ∀ (mem : Nat → GdbThread) (S : Nat) (ns : List Nat) (fuel : Nat),
      ringConsistent mem S ns = true → ns.length ≤ fuel →
      walkFrom mem S fuel ((mem S).p_newer) = .ok ns ∧ S ∉ ns := by
  intro mem S ns fuel h hf
  have hchain : chainOk mem S ((mem S).p_newer) ns = true := by
    simp only [ringConsistent, Bool.and_eq_true] at h
    exact h.2
  exact ⟨walkFrom_chainOk mem S ns _ fuel hchain hf,
    chainOk_not_mem mem S ns _ hchain⟩

/-- C2 witness: a concrete three-node ring and a concrete empty ring. -/
theorem consistent_ring_walk_ok_witness :
    (ringConsistent mem3 100 [1, 2, 3] = true
      ∧ walkFrom mem3 100 5 ((mem3 100).p_newer) = .ok [1, 2, 3] ∧ 100 ∉ [1, 2, 3])
    ∧ (ringConsistent memEmpty 100 [] = true
      ∧ walkFrom memEmpty 100 5 ((memEmpty 100).p_newer) = .ok [] ∧ 100 ∉ ([] : List Nat)) :=
  ⟨⟨by decide, consistent_ring_walk_ok mem3 100 [1, 2, 3] 5 (by decide) (by decide)⟩,
   ⟨by decide, consistent_ring_walk_ok memEmpty 100 [] 5 (by decide) (by decide)⟩⟩

/-- C1 counterexample: a ring whose only inconsistency is the backward
pointer of the first node after the sentinel walks to completion — no
`CorruptListError` is raised, so an inconsistency "anywhere in the ring
including the first node after the sentinel" is *not* always detected. -/
theorem first_backward_link_unchecked :
    (memFirstBad 1).p_older ≠ 100
    ∧ chibios_get_threads memFirstBad infNone 100 10 =
        .ok [mkChibiosThread 1 (memFirstBad 1) infNone,
             mkChibiosThread 2 (memFirstBad 2) infNone] :=
  ⟨by decide, rfl⟩

/-- C1 (amended): if the backward-pointer check fails at some followed
link *other than the link out of the sentinel* (the first node's own
backward pointer is never compared), both walkers fail with a
`gdb.GdbError` carrying the fixed message
`"Rlist pointer invalid--corrupt list?"` — which does not contain the
node address — and no node past the detection point is yielded: the
thread walk returns no threads at all, and the timers walk has printed
exactly the nodes up to and including the one at which the corruption
was detected. -/
theorem corrupt_ring_walks_fail :
    (∀ (mem : Nat → GdbThread) (inf : Inferior) (S : Nat) (ns : List Nat) (fuel : Nat),
        chainCorrupt mem S ((mem S).p_newer) ns = true → ns.length ≤ fuel →
        chibios_get_threads mem inf S fuel = .err "Rlist pointer invalid--corrupt list?")
    ∧ (∀ (mem : Nat → GdbTimer) (S : Nat) (ns : List Nat) (fuel : Nat),
        timerChainCorrupt mem S ((mem S).vt_next) ns = true → ns.length ≤ fuel →
        chibios_timers mem S fuel =
          (ns.map (fun a => mkTimerEntry (mem a)), .err "Rlist pointer invalid--corrupt list?")) := by
  constructor
  · intro mem inf S ns fuel h hf
    unfold chibios_get_threads
    rw [walkFrom_chainCorrupt mem S ns _ fuel h hf]
    rfl
  · intro mem S ns fuel h hf
    exact timersFrom_chainCorrupt mem S ns _ fuel h hf

/-- C1 witness: concrete two-node thread and timer rings corrupted at
the second followed link. -/
theorem corrupt_ring_walks_fail_witness :
    (chainCorrupt memCorrupt2 100 ((memCorrupt2 100).p_newer) [1] = true
      ∧ chibios_get_threads memCorrupt2 infNone 100 10 =
          .err "Rlist pointer invalid--corrupt list?")
    ∧ (timerChainCorrupt tmemCorrupt 200 ((tmemCorrupt 200).vt_next) [5] = true
      ∧ chibios_timers tmemCorrupt 200 10 =
          ([mkTimerEntry (tmemCorrupt 5)], .err "Rlist pointer invalid--corrupt list?")) :=
  ⟨⟨by decide, corrupt_ring_walks_fail.1 memCorrupt2 infNone 100 [1] 10 (by decide) (by decide)⟩,
   ⟨by decide, corrupt_ring_walks_fail.2 tmemCorrupt 200 [5] 10 (by decide) (by decide)⟩⟩

/-- C9: the thread listing is produced for a consistent ring whatever
the inferior's memory reads do (so a failed stack read never aborts the
multi-thread query), and a thread whose stack byte-range read raises
`gdb.MemoryError` reports `stack_unused = 0`. -/
theorem stack_read_failure_absorbed :
    (∀ (mem : Nat → GdbThread) (inf : Inferior) (S : Nat) (ns : List Nat) (fuel : Nat),
        ringConsistent mem S ns = true → ns.length ≤ fuel →
        chibios_get_threads mem inf S fuel =
          .ok (ns.map (fun a => mkChibiosThread a (mem a) inf)))
    ∧ (∀ (addr : Nat) (t : GdbThread) (inf : Inferior),
        t.has_p_stklimit = true → 0 < t.p_stklimit →
        inf.read_memory t.p_stklimit ((t.p_ctx_r13 : Int) - (t.p_stklimit : Int)) = none →
        (mkChibiosThread addr t inf).stack_unused = 0) := by
  constructor
  · intro mem inf S ns fuel h hf
    have hchain : chainOk mem S ((mem S).p_newer) ns = true := by
      simp only [ringConsistent, Bool.and_eq_true] at h
      exact h.2
    unfold chibios_get_threads
    rw [walkFrom_chainOk mem S ns _ fuel hchain hf]
    rfl
  · intro addr t inf hhas hpos hread
    simp [mkChibiosThread, hhas, hpos, hread]

/-- C9 witness: a two-thread ring where the first thread's stack read
fails and the full listing is nonetheless produced. -/
theorem stack_read_failure_absorbed_witness :
    (ringConsistent memStacks 100 [1, 2] = true
      ∧ chibios_get_threads memStacks infPartial 100 5 =
          .ok ([1, 2].map (fun a => mkChibiosThread a (memStacks a) infPartial)))
    ∧ ((memStacks 1).has_p_stklimit = true ∧ 0 < (memStacks 1).p_stklimit
      ∧ infPartial.read_memory (memStacks 1).p_stklimit
          (((memStacks 1).p_ctx_r13 : Int) - ((memStacks 1).p_stklimit : Int)) = none
      ∧ (mkChibiosThread 1 (memStacks 1) infPartial).stack_unused = 0) :=
  ⟨⟨by decide,
    stack_read_failure_absorbed.1 memStacks infPartial 100 [1, 2] 5 (by decide) (by decide)⟩,
   ⟨by decide, by decide, by decide,
    stack_read_failure_absorbed.2 1 (memStacks 1) infPartial (by decide) (by decide) (by decide)⟩⟩

/-! ## Stack scanner lemmas and claims -/

/-- The scan loop finds the first non-sentinel byte. -/
theorem findNonSentinel_eq_some :
    ∀ (stack : List Nat) (K bK : Nat), K < stack.length →
      (∀ j, j < K → stack.get? j = some 0x55) →
      stack.get? K = some bK → bK ≠ 0x55 →
      findNonSentinel stack = some K := by
  intro stack
  induction stack with
  | nil => intro K bK hK _ _ _; simp at hK
  | cons b rest ih =>
    intro K bK hK hbefore hat hbne
    cases K with
    | zero =>
      have hb : b = bK := by simpa using hat
      subst hb
      simp [findNonSentinel, hbne]
    | succ K =>
      have h0 : b = 0x55 := by simpa using hbefore 0 (Nat.succ_pos K)
      have hrest := ih K bK (by simpa using hK)
        (fun j hj => by simpa using hbefore (j + 1) (by omega))
        (by simpa using hat) hbne
      simp [findNonSentinel, h0, hrest]

/-- On an entirely sentinel-filled buffer the scan loop falls through to
the `for`/`else` branch. -/
theorem findNonSentinel_eq_none :
    ∀ (stack : List Nat), (∀ b ∈ stack, b = 0x55) → findNonSentinel stack = none := by
  intro stack
  induction stack with
  | nil => intro _; rfl
  | cons b rest ih =>
    intro h
    have hb : b = 0x55 := h b (List.mem_cons_self b rest)
    have hrest := ih (fun x hx => h x (List.mem_cons_of_mem b hx))
    simp [findNonSentinel, hb, hrest]

/-- C4: for a readable stack region, if the byte at offset `K` (counted
from `stack_limit`) is the first byte differing from the sentinel
`0x55`, then `stack_unused = K`; if every byte equals the sentinel, then
`stack_unused = S`, the size of the region (handled by the loop's
explicit `else` branch). -/
theorem stack_scan_correct :
    ∀ (addr : Nat) (t : GdbThread) (inf : Inferior) (stack : List Nat),
      t.has_p_stklimit = true → 0 < t.p_stklimit →
      inf.read_memory t.p_stklimit ((t.p_ctx_r13 : Int) - (t.p_stklimit : Int)) = some stack →
      ((∀ (K bK : Nat), K < stack.length →
          (∀ j, j < K → stack.get? j = some 0x55) →
          stack.get? K = some bK → bK ≠ 0x55 →
          (mkChibiosThread addr t inf).stack_unused = (K : Int))
       ∧ ((∀ b ∈ stack, b = 0x55) →
          (stack.length : Int) = (t.p_ctx_r13 : Int) - (t.p_stklimit : Int) →
          (mkChibiosThread addr t inf).stack_unused = (stack.length : Int))) := by
  intro addr t inf stack hhas hpos hread
  constructor
  · intro K bK hK hbefore hat hbne
    have hfind := findNonSentinel_eq_some stack K bK hK hbefore hat hbne
    simp [mkChibiosThread, hhas, hpos, hread, hfind]
  · intro hall hlen
    have hfind := findNonSentinel_eq_none stack hall
    simp [mkChibiosThread, hhas, hpos, hread, hfind]
    omega

/-- C4 witness: a 5-byte region `55 55 55 07 55` scans to `3`; a 4-byte
all-sentinel region scans to its full size `4`. -/
theorem stack_scan_correct_witness :
    (scanThreadA.has_p_stklimit = true ∧ 0 < scanThreadA.p_stklimit
      ∧ infScan.read_memory scanThreadA.p_stklimit
          ((scanThreadA.p_ctx_r13 : Int) - (scanThreadA.p_stklimit : Int)) =
            some [0x55, 0x55, 0x55, 7, 0x55]
      ∧ (mkChibiosThread 1 scanThreadA infScan).stack_unused = 3)
    ∧ (scanThreadB.has_p_stklimit = true ∧ 0 < scanThreadB.p_stklimit
      ∧ infScan.read_memory scanThreadB.p_stklimit
          ((scanThreadB.p_ctx_r13 : Int) - (scanThreadB.p_stklimit : Int)) =
            some [0x55, 0x55, 0x55, 0x55]
      ∧ (mkChibiosThread 2 scanThreadB infScan).stack_unused = 4) :=
  ⟨⟨by decide, by decide, by decide,
    (stack_scan_correct 1 scanThreadA infScan [0x55, 0x55, 0x55, 7, 0x55]
        (by decide) (by decide) (by decide)).1 3 7 (by decide)
        (by decide) (by decide) (by decide)⟩,
   ⟨by decide, by decide, by decide,
    (stack_scan_correct 2 scanThreadB infScan [0x55, 0x55, 0x55, 0x55]
        (by decide) (by decide) (by decide)).2 (by decide) (by decide)⟩⟩

/-! ## Optional-field claims -/

/-- C5 counterexample: a build without `p_stklimit`/`p_time` produces a
snapshot identical to one from a build where both fields exist and were
measured as zero — the caller cannot distinguish "not measured" from
"measured zero". -/
theorem absent_field_indistinguishable_from_zero :
    gdbThreadAbsent.has_p_stklimit = false ∧ gdbThreadAbsent.has_p_time = false
    ∧ gdbThreadZero.has_p_stklimit = true ∧ gdbThreadZero.p_stklimit = 0
    ∧ gdbThreadZero.has_p_time = true ∧ gdbThreadZero.p_time = 0
    ∧ mkChibiosThread 1 gdbThreadAbsent infNone = mkChibiosThread 1 gdbThreadZero infNone := by
  decide

/-- C5 (amended): the builder queries field existence before reading an
optional field, but an absent field keeps its plain zero default from
the top of `__init__` (absent `p_stklimit` reads back as stack limit `0`
with size and unused `0`; absent `p_time` reads back as time `0`), a
silent fallback indistinguishable from a measured zero. -/
theorem optional_fields_zero_default :
    ∀ (addr : Nat) (t : GdbThread) (inf : Inferior),
      (t.has_p_stklimit = false →
        (mkChibiosThread addr t inf).stack_limit = 0
        ∧ (mkChibiosThread addr t inf).stack_size = 0
        ∧ (mkChibiosThread addr t inf).stack_unused = 0)
      ∧ (t.has_p_stklimit = true → (mkChibiosThread addr t inf).stack_limit = t.p_stklimit)
      ∧ (t.has_p_time = false → (mkChibiosThread addr t inf).time = 0)
      ∧ (t.has_p_time = true → (mkChibiosThread addr t inf).time = t.p_time) := by
  intro addr t inf
  refine ⟨fun h => ?_, fun h => ?_, fun h => ?_, fun h => ?_⟩ <;>
    simp [mkChibiosThread, h]

/-- C5 witness: the build without optional fields. -/
theorem optional_fields_zero_default_witness :
    gdbThreadAbsent.has_p_stklimit = false
    ∧ (mkChibiosThread 1 gdbThreadAbsent infNone).stack_limit = 0
    ∧ (mkChibiosThread 1 gdbThreadAbsent infNone).stack_size = 0
    ∧ (mkChibiosThread 1 gdbThreadAbsent infNone).stack_unused = 0
    ∧ (mkChibiosThread 1 gdbThreadAbsent infNone).time = 0 :=
  ⟨rfl,
   ((optional_fields_zero_default 1 gdbThreadAbsent infNone).1 rfl).1,
   ((optional_fields_zero_default 1 gdbThreadAbsent infNone).1 rfl).2.1,
   ((optional_fields_zero_default 1 gdbThreadAbsent infNone).1 rfl).2.2,
   (optional_fields_zero_default 1 gdbThreadAbsent infNone).2.2.1 rfl⟩

/-! ## State decode claims -/

/-- C6 counterexample: the raw state code `-1` is outside `[0, 14]` yet
`state_str` is not an error — Python indexing wraps it to the table
entry `"FINAL"`. -/
theorem negative_state_wraps_to_final :
    (mkChibiosThread 1 (stateThread (-1)) infNone).state = -1
    ∧ ¬(0 ≤ (-1 : Int) ∧ (-1 : Int) ≤ 14)
    ∧ (mkChibiosThread 1 (stateThread (-1)) infNone).state_str = some "FINAL" := by
  decide

/-- C6 (amended): the snapshot stores the raw state code unvalidated;
`state_str` indexes the fixed 15-entry table with Python semantics:
codes in `[0, 14]` map to their entry (14 to `"FINAL"`), codes `≥ 15` or
`≤ -16` raise `IndexError`, and codes in `[-15, -1]` wrap to the entry
at `15 + code` instead of erroring. -/
theorem state_decode_python_indexing :
    THREAD_STATE.length = 15
    ∧ ∀ (addr : Nat) (t : GdbThread) (inf : Inferior),
        (mkChibiosThread addr t inf).state = t.p_state
        ∧ (t.p_state = 14 → (mkChibiosThread addr t inf).state_str = some "FINAL")
        ∧ (0 ≤ t.p_state → t.p_state ≤ 14 →
            (mkChibiosThread addr t inf).state_str = THREAD_STATE.get? t.p_state.toNat)
        ∧ (15 ≤ t.p_state → (mkChibiosThread addr t inf).state_str = none)
        ∧ (t.p_state ≤ -16 → (mkChibiosThread addr t inf).state_str = none)
        ∧ (-15 ≤ t.p_state → t.p_state < 0 →
            (mkChibiosThread addr t inf).state_str = THREAD_STATE.get? (15 + t.p_state).toNat) := by
  have hlen : (THREAD_STATE.length : Int) = 15 := rfl
  refine ⟨rfl, fun addr t inf => ⟨rfl, fun h14 => ?_, fun h0 h14 => ?_,
    fun h15 => ?_, fun hm16 => ?_, fun hm15 hneg => ?_⟩⟩
  · show pyIndex THREAD_STATE t.p_state = some "FINAL"
    rw [h14]
    decide
  · show pyIndex THREAD_STATE t.p_state = THREAD_STATE.get? t.p_state.toNat
    unfold pyIndex
    rw [if_pos h0]
  · show pyIndex THREAD_STATE t.p_state = none
    unfold pyIndex
    rw [if_pos (by omega : (0 : Int) ≤ t.p_state)]
    exact List.get?_eq_none.mpr (by simp [THREAD_STATE]; omega)
  · show pyIndex THREAD_STATE t.p_state = none
    unfold pyIndex
    rw [if_neg (by omega), hlen, if_neg (by omega)]
  · show pyIndex THREAD_STATE t.p_state = THREAD_STATE.get? (15 + t.p_state).toNat
    unfold pyIndex
    rw [if_neg (by omega), hlen, if_pos (by omega)]

/-- C6 witness: codes 14, 15, -16, 3 and -1. -/
theorem state_decode_python_indexing_witness :
    ((stateThread 14).p_state = 14
      ∧ (mkChibiosThread 1 (stateThread 14) infNone).state_str = some "FINAL")
    ∧ (15 ≤ (stateThread 15).p_state
      ∧ (mkChibiosThread 1 (stateThread 15) infNone).state_str = none)
    ∧ ((stateThread (-16)).p_state ≤ -16
      ∧ (mkChibiosThread 1 (stateThread (-16)) infNone).state_str = none)
    ∧ (0 ≤ (stateThread 3).p_state ∧ (stateThread 3).p_state ≤ 14
      ∧ (mkChibiosThread 1 (stateThread 3) infNone).state_str =
          THREAD_STATE.get? ((3 : Int)).toNat)
    ∧ (-15 ≤ (stateThread (-1)).p_state ∧ (stateThread (-1)).p_state < 0
      ∧ (mkChibiosThread 1 (stateThread (-1)) infNone).state_str =
          THREAD_STATE.get? (15 + (stateThread (-1)).p_state).toNat) :=
  ⟨⟨by decide,
    (state_decode_python_indexing.2 1 (stateThread 14) infNone).2.1 (by decide)⟩,
   ⟨by decide,
    (state_decode_python_indexing.2 1 (stateThread 15) infNone).2.2.2.1 (by decide)⟩,
   ⟨by decide,
    (state_decode_python_indexing.2 1 (stateThread (-16)) infNone).2.2.2.2.1 (by decide)⟩,
   ⟨by decide, by decide,
    (state_decode_python_indexing.2 1 (stateThread 3) infNone).2.2.1 (by decide) (by decide)⟩,
   ⟨by decide, by decide,
    (state_decode_python_indexing.2 1 (stateThread (-1)) infNone).2.2.2.2.2 (by decide) (by decide)⟩⟩

/-! ## Trace reconstruction lemmas and claims -/

/-- Linearising the ring preserves the number of events. -/
theorem reorderTraces_length (buffer : List TraceEvent) (w : Nat) :
    (reorderTraces buffer w).length = buffer.length := by
  simp [reorderTraces]
  omega

/-- `buildRest` produces one row per remaining event. -/
theorem buildRest_length (threads : List ChibiosThread) :
    ∀ (rest : List TraceEvent) (idx : Int) (prevEv : TraceEvent) (ls : List TraceLine),
      buildRest threads idx prevEv rest = some ls → ls.length = rest.length := by
  intro rest
  induction rest with
  | nil =>
    intro idx prevEv ls h
    simp only [buildRest, Option.some.injEq] at h
    simp [← h]
  | cons e rest ih =>
    intro idx prevEv ls h
    simp only [buildRest] at h
    cases htl : trace_line idx e.se_time e.se_state
        (lookupThread threads prevEv.se_tp) (lookupThread threads e.se_tp) with
    | none => rw [htl] at h; simp at h
    | some line =>
      rw [htl] at h
      cases hbr : buildRest threads (idx + 1) e rest with
      | none => rw [hbr] at h; simp at h
      | some ls2 =>
        rw [hbr] at h
        simp only [Option.some.injEq] at h
        rw [← h]
        simp [ih (idx + 1) e ls2 hbr]

/-- `buildTraceLines` produces one row per event. -/
theorem buildTraceLines_length (threads : List ChibiosThread) :
    ∀ (traces : List TraceEvent) (ls : List TraceLine),
      buildTraceLines threads traces = some ls → ls.length = traces.length := by
  intro traces ls h
  cases traces with
  | nil => simp [buildTraceLines] at h
  | cons t0 rest =>
    simp only [buildTraceLines] at h
    cases htl : trace_line (-63) t0.se_time t0.se_state none
        (lookupThread threads t0.se_tp) with
    | none => rw [htl] at h; simp at h
    | some l0 =>
      rw [htl] at h
      cases hbr : buildRest threads (-62) t0 rest with
      | none => rw [hbr] at h; simp at h
      | some ls2 =>
        rw [hbr] at h
        simp only [Option.some.injEq] at h
        rw [← h]
        simp [buildRest_length threads rest (-62) t0 ls2 hbr]

/-- `l[k:]` for a non-negative start. -/
theorem pySliceFrom_nonneg {α : Type} (l : List α) (k : Int) (h : 0 ≤ k) :
    pySliceFrom l k = l.drop k.toNat := by
  simp [pySliceFrom, h]

/-- `l[0:]` is the whole list. -/
theorem pySliceFrom_zero {α : Type} (l : List α) : pySliceFrom l 0 = l := by
  simp [pySliceFrom]

/-- `l[-c:]` for `0 < c ≤ len` is the last `c` elements. -/
theorem pySliceFrom_neg_last {α : Type} (l : List α) (c : Int) (h1 : 0 < c)
    (h2 : c ≤ (l.length : Int)) :
    pySliceFrom l (-c) = l.drop (l.length - c.toNat) := by
  unfold pySliceFrom
  rw [if_neg (by omega)]
  congr 1
  omega

/-- `l[-len:]` is the whole list. -/
theorem pySliceFrom_neg_self {α : Type} (l : List α) :
    pySliceFrom l (-(l.length : Int)) = l := by
  unfold pySliceFrom
  split
  · rename_i h
    have h0 : (-(l.length : Int)).toNat = 0 := by omega
    rw [h0, List.drop_zero]
  · rename_i h
    have h0 : (max ((l.length : Int) + -(l.length : Int)) 0).toNat = 0 := by omega
    rw [h0, List.drop_zero]

/-- C3: the reconstructed chronological order is the raw buffer rotated
left by the write cursor `w`; concretely, for capacity 5 and `w = 2` the
order is `[buf[2], buf[3], buf[4], buf[0], buf[1]]`, and requesting
`n = 3` returns exactly the rows of the last 3 of that sequence,
`[buf[4], buf[0], buf[1]]` (timestamps 14, 10, 11 of the sample). -/
theorem trace_rotate_left :
    (∀ (buffer : List TraceEvent) (w : Nat), w ≤ buffer.length →
        reorderTraces buffer w = buffer.rotate w)
    ∧ (∀ b0 b1 b2 b3 b4 : TraceEvent,
        reorderTraces [b0, b1, b2, b3, b4] 2 = [b2, b3, b4, b0, b1])
    ∧ chibios_trace_invoke [sampleThread] sampleEvents 2 3 =
        some [⟨-61, 14, 1000, "main", "READY", 1000, "main"⟩,
              ⟨-60, 10, 1000, "main", "READY", 1000, "main"⟩,
              ⟨-59, 11, 1000, "main", "READY", 1000, "main"⟩] := by
  refine ⟨fun buffer w h => ?_, fun b0 b1 b2 b3 b4 => rfl, by decide⟩
  unfold reorderTraces
  exact (List.rotate_eq_drop_append_take h).symm

/-- C3 witness: the sample buffer with `w = 2`. -/
theorem trace_rotate_left_witness :
    2 ≤ sampleEvents.length ∧ reorderTraces sampleEvents 2 = sampleEvents.rotate 2 :=
  ⟨by decide, trace_rotate_left.1 sampleEvents 2 (by decide)⟩

/-- C8 counterexample: requesting `n = 0` events from the capacity-5
sample buffer returns all 5 events (Python `trace_lines[-0:]` is the
whole list), and `n = -2` returns 3 events — not the zero events the
claimed clamp to `[0, capacity]` would give. -/
theorem count_zero_returns_full_buffer :
    (chibios_trace_invoke [sampleThread] sampleEvents 2 0).map List.length = some 5
    ∧ (chibios_trace_invoke [sampleThread] sampleEvents 2 (-2)).map List.length = some 3 := by
  decide

/-- C8 (amended): the requested count is clamped from above only:
`n > capacity` returns the whole buffer (not an error) and
`0 < n ≤ capacity` returns the last `n` events, but there is no lower
clamp — `n = 0` returns the whole buffer and a negative `n` returns all
but the first `-n` events of the chronological sequence. -/
theorem trace_count_clamping :
    ∀ (threads : List ChibiosThread) (buffer : List TraceEvent) (w : Nat) (count : Int)
      (lines : List TraceLine),
      buildTraceLines threads (reorderTraces buffer w) = some lines →
      ((count > (buffer.length : Int) →
          chibios_trace_invoke threads buffer w count = some lines)
       ∧ (0 < count → count ≤ (buffer.length : Int) →
          chibios_trace_invoke threads buffer w count =
            some (lines.drop (lines.length - count.toNat)))
       ∧ (count = 0 → chibios_trace_invoke threads buffer w count = some lines)
       ∧ (count < 0 → chibios_trace_invoke threads buffer w count =
            some (lines.drop (-count).toNat))) := by
  intro threads buffer w count lines h
  have hlen : lines.length = buffer.length := by
    rw [buildTraceLines_length threads (reorderTraces buffer w) lines h,
      reorderTraces_length]
  have hinv : chibios_trace_invoke threads buffer w count =
      some (pySliceFrom lines
        (-(if count > (buffer.length : Int) then (buffer.length : Int) else count))) := by
    unfold chibios_trace_invoke
    rw [h]
    rfl
  refine ⟨fun hc => ?_, fun hc1 hc2 => ?_, fun hc => ?_, fun hc => ?_⟩
  · rw [hinv, if_pos hc, ← hlen, pySliceFrom_neg_self]
  · rw [hinv, if_neg (by omega), pySliceFrom_neg_last lines count hc1 (by omega)]
  · rw [hinv, if_neg (by omega), hc, neg_zero, pySliceFrom_zero]
  · rw [hinv, if_neg (by omega), pySliceFrom_nonneg lines (-count) (by omega)]

/-- C8 witness: the sample buffer with counts 7, 3, 0 and -2. -/
theorem trace_count_clamping_witness :
    buildTraceLines [sampleThread] (reorderTraces sampleEvents 2) = some sampleLines
    ∧ chibios_trace_invoke [sampleThread] sampleEvents 2 7 = some sampleLines
    ∧ chibios_trace_invoke [sampleThread] sampleEvents 2 3 =
        some (sampleLines.drop (sampleLines.length - (3 : Int).toNat))
    ∧ chibios_trace_invoke [sampleThread] sampleEvents 2 0 = some sampleLines
    ∧ chibios_trace_invoke [sampleThread] sampleEvents 2 (-2) =
        some (sampleLines.drop ((2 : Int)).toNat) :=
  ⟨by decide,
   (trace_count_clamping [sampleThread] sampleEvents 2 7 sampleLines (by decide)).1
     (by decide),
   (trace_count_clamping [sampleThread] sampleEvents 2 3 sampleLines (by decide)).2.1
     (by decide) (by decide),
   (trace_count_clamping [sampleThread] sampleEvents 2 0 sampleLines (by decide)).2.2.1
     (by decide),
   (trace_count_clamping [sampleThread] sampleEvents 2 (-2) sampleLines (by decide)).2.2.2
     (by decide)⟩

/-- A trace row whose current thread failed to resolve always fails
(`curr_thread.address` on `None` raises `AttributeError`). -/
theorem trace_line_curr_none (index time state : Int) (prev : Option ChibiosThread) :
    trace_line index time state prev none = none := rfl

/-- A successful first row carries the explicit no-predecessor marker:
previous address `0` and empty previous name. -/
theorem trace_line_prev_none (index time state : Int) (curr : Option ChibiosThread)
    (l : TraceLine) :
    trace_line index time state none curr = some l →
    l.prev_address = 0 ∧ l.prev_name = "" := by
  cases curr with
  | none => intro h; simp [trace_line] at h
  | some c =>
    cases hpi : pyIndex THREAD_STATE state with
    | none => intro h; simp [trace_line, hpi] at h
    | some st =>
      intro h
      simp only [trace_line, hpi, Option.some.injEq] at h
      subst h
      exact ⟨rfl, rfl⟩

/-- An unresolved event anywhere in the tail aborts `buildRest`. -/
theorem buildRest_unresolved (threads : List ChibiosThread) :
    ∀ (rest : List TraceEvent) (idx : Int) (prevEv : TraceEvent),
      (∃ e ∈ rest, lookupThread threads e.se_tp = none) →
      buildRest threads idx prevEv rest = none := by
  intro rest
  induction rest with
  | nil => intro idx prevEv h; simp at h
  | cons e rest ih =>
    intro idx prevEv h
    obtain ⟨x, hx, hnone⟩ := h
    rcases List.mem_cons.mp hx with rfl | hx2
    · simp only [buildRest]
      rw [hnone, trace_line_curr_none]
    · simp only [buildRest]
      cases htl : trace_line idx e.se_time e.se_state
          (lookupThread threads prevEv.se_tp) (lookupThread threads e.se_tp) with
      | none => rfl
      | some line => rw [ih (idx + 1) e ⟨x, hx2, hnone⟩]

/-- C7 (amended): an event whose `thread_address` matches no snapshot
makes the whole trace query fail (`trace_line` dereferences the missing
snapshot), rather than being rendered as an explicit "unknown thread";
the very first reconstructed event, however, is annotated with an
explicit no-predecessor marker (previous address `0`, empty name)
rather than an arbitrary thread. -/
theorem trace_unknown_thread_behaviour :
    (∀ (threads : List ChibiosThread) (traces : List TraceEvent),
        (∃ e ∈ traces, lookupThread threads e.se_tp = none) →
        buildTraceLines threads traces = none)
    ∧ (∀ (threads : List ChibiosThread) (t0 : TraceEvent) (rest : List TraceEvent)
        (res : List TraceLine),
        buildTraceLines threads (t0 :: rest) = some res →
        ∃ l0 ls, res = l0 :: ls ∧ l0.prev_address = 0 ∧ l0.prev_name = "") := by
  constructor
  · intro threads traces h
    obtain ⟨x, hx, hnone⟩ := h
    cases traces with
    | nil => simp at hx
    | cons t0 rest =>
      rcases List.mem_cons.mp hx with rfl | hx2
      · simp only [buildTraceLines]
        rw [hnone, trace_line_curr_none]
      · simp only [buildTraceLines]
        cases htl : trace_line (-63) t0.se_time t0.se_state none
            (lookupThread threads t0.se_tp) with
        | none => rfl
        | some l0 => rw [buildRest_unresolved threads rest (-62) t0 ⟨x, hx2, hnone⟩]
  · intro threads t0 rest res h
    simp only [buildTraceLines] at h
    cases htl : trace_line (-63) t0.se_time t0.se_state none
        (lookupThread threads t0.se_tp) with
    | none => rw [htl] at h; simp at h
    | some l0 =>
      rw [htl] at h
      cases hbr : buildRest threads (-62) t0 rest with
      | none => rw [hbr] at h; simp at h
      | some ls =>
        rw [hbr] at h
        simp only [Option.some.injEq] at h
        obtain ⟨hpa, hpn⟩ := trace_line_prev_none (-63) t0.se_time t0.se_state
          (lookupThread threads t0.se_tp) l0 htl
        exact ⟨l0, ls, h.symm, hpa, hpn⟩

/-- C7 counterexample: one event naming the unknown address `1234`
makes the whole trace query fail (`none`) instead of producing an
"unknown thread" row. -/
theorem unknown_thread_address_fails_query :
    lookupThread [sampleThread] 1234 = none
    ∧ chibios_trace_invoke [sampleThread] [⟨0, 0, 1234⟩] 0 1 = none := by
  decide

/-- C7 witness: the unresolved-event case and the explicit
no-predecessor first row on a resolving event. -/
theorem trace_unknown_thread_behaviour_witness :
    (∃ e ∈ [TraceEvent.mk 0 0 1234], lookupThread [sampleThread] e.se_tp = none)
    ∧ buildTraceLines [sampleThread] [⟨0, 0, 1234⟩] = none
    ∧ (∃ l0 ls, [TraceLine.mk (-63) 10 0 "" "READY" 1000 "main"] = l0 :: ls
        ∧ l0.prev_address = 0 ∧ l0.prev_name = "") :=
  ⟨by decide,
   trace_unknown_thread_behaviour.1 [sampleThread] [⟨0, 0, 1234⟩] (by decide),
   trace_unknown_thread_behaviour.2 [sampleThread] ⟨10, 0, 1000⟩ []
     [⟨-63, 10, 0, "", "READY", 1000, "main"⟩] (by decide)⟩

/-! ## Version decode claim -/

/-- C10: the version decoder computes exactly
`major = (v >>> 11) &&& 0x1F`, `minor = (v >>> 6) &&& 0x1F`,
`patch = v &&& 0x1F`, and `0x2841` decodes to `(5, 1, 1)`. -/
theorem version_decode_correct :
    (∀ v : Nat, chibios_info v =
      ((v >>> 11) &&& 0x1f, (v >>> 6) &&& 0x1f, v &&& 0x1f))
    ∧ chibios_info 0x2841 = (5, 1, 1) :=
  ⟨fun _ => rfl, by decide⟩

end Chibios
